import Mathlib

/-!
Verification of the field-path resolution and polling-fetch core of the
finboard dashboard.

The source under scrutiny is the hook file containing `useFetchData` and
`parseDataKey` (the "robust parser" variant).  `parseDataKey` is embedded
here as a total Lean function over a deep model of JSON values, together
with the pieces of JavaScript semantics it actually relies on:

* `Object.prototype.hasOwnProperty.call(current, k)` — for plain objects
  this is key membership; for arrays and (boxed) string primitives the own
  properties are the canonical numeric indices below the length plus
  `"length"`; numbers, booleans and `null` have no own properties.
* `current[k]` — own-property access, only ever performed by the source
  after a successful `hasOwnProperty` check or with a numeric index on an
  array.
* `Number(s)` — the string-to-number coercion used by the array-index
  branch, modelled over exact rationals (ℚ).  JavaScript computes in
  binary floating point; the difference is irrelevant for index selection
  on integer numerals, which is all the source uses the value for.
* `keyPath.replace(/\[(\d+)\]/g, '.$1')` — modelled as a single
  left-to-right scan (`normalizeBrackets`).
* `split('.')` — every dot separates, empty segments are kept
  (`splitDot`).

Strings are modelled as lists of characters (code points); JavaScript
strings are UTF-16 code-unit sequences, which agrees on the ASCII data the
dashboard paths use.

The fetch cycle of `useFetchData` is modelled as a pure state transformer
(`runCycle`) over the hook's `{data, loading, error}` state, split into
the synchronous part before the first `await` (`startCycle`) and the
continuation that runs when the response resolves (`finishCycle`).  The
effect-cleanup behaviour is modelled by `hookStep`: cleanup clears the
interval timer and nothing else, exactly as in the source.
-/

/-- JSON values as produced by `response.json()`: null, booleans, numbers
(modelled as exact rationals), strings, arrays and objects (ordered field
lists; `JSON.parse` output has pairwise distinct keys). -/
inductive Json where
  | null
  | bool (b : Bool)
  | num (q : ℚ)
  | str (s : String)
  | arr (xs : List Json)
  | obj (fields : List (String × Json))

/-- Result of the JavaScript `Number(string)` coercion: `NaN`, a finite
value, or a signed infinity. -/
inductive JsNum where
  | nan
  | finite (q : ℚ)
  | infinite (neg : Bool)
deriving DecidableEq

/-- White-space characters stripped by `Number(string)` (the common
StrWhiteSpace characters: ASCII blanks, NBSP, BOM, line separators). -/
def isJsWhitespace (c : Char) : Bool :=
  c = ' ' || c = '\t' || c = '\n' || c = '\r' ||
  c = Char.ofNat 0x0B || c = Char.ofNat 0x0C ||
  c = Char.ofNat 0xA0 || c = Char.ofNat 0xFEFF ||
  c = Char.ofNat 0x2028 || c = Char.ofNat 0x2029

/-- Strip leading and trailing JavaScript white space. -/
def trimJs (l : List Char) : List Char :=
  ((l.dropWhile isJsWhitespace).reverse.dropWhile isJsWhitespace).reverse

/-- Value of a list of decimal digit characters. -/
def digitsVal (l : List Char) : Nat :=
  l.foldl (fun a c => a * 10 + (c.toNat - 48)) 0

/-- Value of one hexadecimal digit character. -/
def hexVal (c : Char) : Nat :=
  if c.isDigit then c.toNat - 48
  else if 'a' ≤ c ∧ c ≤ 'f' then c.toNat - 87
  else if 'A' ≤ c ∧ c ≤ 'F' then c.toNat - 55
  else 0

/-- Digit test for the non-decimal radixes accepted by `Number` (16, 8, 2). -/
def isRadixDigit (base : Nat) (c : Char) : Bool :=
  if base = 16 then c.isDigit || ('a' ≤ c && c ≤ 'f') || ('A' ≤ c && c ≤ 'F')
  else if base = 8 then '0' ≤ c && c ≤ '7'
  else c = '0' || c = '1'

/-- Value of a digit list in the given radix. -/
def radixVal (base : Nat) (l : List Char) : Nat :=
  l.foldl (fun a c => a * base + hexVal c) 0

/-- Integer power of ten over ℚ, used for decimal exponents. -/
def qpow10 : Int → ℚ
  | Int.ofNat n => (10 : ℚ) ^ n
  | Int.negSucc n => 1 / (10 : ℚ) ^ (n + 1)

/-- Exponent digits of a decimal literal: non-empty, all digits, consuming
the rest of the input. -/
def expDigits (l : List Char) : Option Int :=
  if l ≠ [] ∧ l.all Char.isDigit then some (digitsVal l) else none

/-- Optional exponent tail (`e`/`E`, optional sign, digits) of a decimal
literal; `none` when the tail is not a valid exponent, `some 0` when
empty. -/
def expTail : List Char → Option Int
  | [] => some 0
  | e :: r =>
    if e = 'e' ∨ e = 'E' then
      match r with
      | '+' :: r2 => expDigits r2
      | '-' :: r2 => (expDigits r2).map Int.neg
      | _ => expDigits r
    else none

/-- Unsigned decimal literal (`DecimalDigits [. DecimalDigits] [Exp]` or
`. DecimalDigits [Exp]`), consuming the whole input; `none` on failure. -/
def parseDec (l : List Char) : Option ℚ :=
  let ip := l.takeWhile Char.isDigit
  let r1 := l.drop ip.length
  match r1 with
  | [] => if ip = [] then none else some (digitsVal ip : ℚ)
  | '.' :: r2 =>
    let fp := r2.takeWhile Char.isDigit
    let r3 := r2.drop fp.length
    if ip = [] ∧ fp = [] then none
    else (expTail r3).map fun e =>
      ((digitsVal ip : ℚ) + (digitsVal fp : ℚ) / (10 : ℚ) ^ fp.length) * qpow10 e
  | _ => if ip = [] then none else (expTail r1).map fun e => (digitsVal ip : ℚ) * qpow10 e

/-- Unsigned numeric literal: `Infinity` or an unsigned decimal. -/
def unsignedNum (l : List Char) : JsNum :=
  if l = "Infinity".data then JsNum.infinite false
  else
    match parseDec l with
    | some q => JsNum.finite q
    | none => JsNum.nan

/-- Application of an explicit sign to the unsigned literal that follows it
(signed forms admit no hex/octal/binary literal, matching `Number`). -/
def signedTail (neg : Bool) (l : List Char) : JsNum :=
  match unsignedNum l with
  | JsNum.finite q => JsNum.finite (if neg then -q else q)
  | JsNum.infinite _ => JsNum.infinite neg
  | JsNum.nan => JsNum.nan

/-- Non-decimal literal body after `0x`/`0o`/`0b`: non-empty digits of the
radix, consuming the whole input. -/
def radixNum (base : Nat) (l : List Char) : JsNum :=
  if l ≠ [] ∧ l.all (isRadixDigit base) then JsNum.finite (radixVal base l : ℚ)
  else JsNum.nan

/-- The JavaScript `Number(string)` coercion, as used by the source's
array-index branch (`Number(attempt)`).  The empty (trimmed) string is 0;
otherwise a signed decimal, `Infinity`, or an unsigned `0x`/`0o`/`0b`
literal; anything else is `NaN`. -/
def jsStrToNum (s : String) : JsNum :=
  match trimJs s.data with
  | [] => JsNum.finite 0
  | c :: r =>
    if c = '+' then signedTail false r
    else if c = '-' then signedTail true r
    else if c = '0' then
      match r with
      | x :: r2 =>
        if x = 'x' ∨ x = 'X' then radixNum 16 r2
        else if x = 'o' ∨ x = 'O' then radixNum 8 r2
        else if x = 'b' ∨ x = 'B' then radixNum 2 r2
        else unsignedNum (c :: r)
      | [] => JsNum.finite 0
    else unsignedNum (c :: r)

/-- Canonical array/string index strings: the decimal numeral `toString n`
(digits only, no leading zero except `"0"` itself).  Only these are own
index properties of arrays and boxed strings. -/
def canonIdx (s : String) : Option Nat :=
  match s.data with
  | [] => none
  | c :: cs =>
    if (c :: cs).all Char.isDigit ∧ (c = '0' → cs = []) then some (digitsVal (c :: cs))
    else none

/-- Test for the JavaScript `null` value. -/
def isNull : Json → Bool
  | Json.null => true
  | _ => false

/-- Test for `Array.isArray`. -/
def isArrayJ : Json → Bool
  | Json.arr _ => true
  | _ => false

/-- The semantics of `Object.prototype.hasOwnProperty.call(current, k)` on
the values reachable during resolution: object key membership; for arrays
the canonical in-range indices and `"length"`; for boxed string primitives
the canonical in-range character indices and `"length"`; numbers, booleans
and `null` (excluded earlier by the source) have no own properties. -/
def hasOwn : Json → String → Bool
  | Json.obj fields, k => fields.any fun p => p.1 == k
  | Json.arr xs, k =>
    k == "length" ||
      (match canonIdx k with
       | some n => decide (n < xs.length)
       | none => false)
  | Json.str s, k =>
    k == "length" ||
      (match canonIdx k with
       | some n => decide (n < s.data.length)
       | none => false)
  | _, _ => false

/-- Own-property access `current[k]`, performed by the source only after a
successful `hasOwnProperty` check; `none` models `undefined`. -/
def getOwn : Json → String → Option Json
  | Json.obj fields, k => (fields.find? fun p => p.1 == k).map Prod.snd
  | Json.arr xs, k =>
    if k == "length" then some (Json.num (xs.length : ℚ))
    else
      match canonIdx k with
      | some n => xs.get? n
      | none => none
  | Json.str s, k =>
    if k == "length" then some (Json.num (s.data.length : ℚ))
    else
      match canonIdx k with
      | some n => (s.data.get? n).map fun ch => Json.str (String.mk [ch])
      | none => none
  | _, _ => none

/-- Array element access `current[idx]` with `idx = Number(attempt)`: an
element for an integer index within bounds, `undefined` (`none`)
otherwise. -/
def arrElem : Json → JsNum → Option Json
  | Json.arr xs, JsNum.finite q =>
    if q.den = 1 ∧ 0 ≤ q.num ∧ q.num < xs.length then xs.get? q.num.toNat else none
  | _, _ => none

/-- The normalization `keyPath.replace(/\[(\d+)\]/g, '.$1')` as one
left-to-right scan.  The first argument is the scanner state: `none` is a
plain scan; `some acc` means a `[` has been read and `acc` holds the
digits collected since (reversed).  A candidate `[digits]` is rewritten to
`.digits`; on any mismatch the characters read so far are emitted
unchanged and scanning resumes, exactly like the global regex. -/
def normalizeBrackets : Option (List Char) → List Char → List Char
  | none, [] => []
  | none, c :: rest =>
    if c = '[' then normalizeBrackets (some []) rest
    else c :: normalizeBrackets none rest
  | some acc, [] => '[' :: acc.reverse
  | some acc, c :: rest =>
    if c = ']' then
      if acc.isEmpty then '[' :: ']' :: normalizeBrackets none rest
      else '.' :: acc.reverse ++ normalizeBrackets none rest
    else if c.isDigit then normalizeBrackets (some (c :: acc)) rest
    else if c = '[' then '[' :: acc.reverse ++ normalizeBrackets (some []) rest
    else '[' :: acc.reverse ++ c :: normalizeBrackets none rest

/-- The split `normalized.split('.')`: every dot separates, empty segments
are kept, the empty input yields one empty segment. -/
def splitDot : List Char → List Char → List String
  | acc, [] => [String.mk acc.reverse]
  | acc, '.' :: rest => String.mk acc.reverse :: splitDot [] rest
  | acc, c :: rest => splitDot (c :: acc) rest

/-- The `for` loop of `parseDataKey` over the list of remaining segments.
The cursor is `Option Json`, `none` modelling `undefined`.  Per segment:
return `undefined` on a `null`/`undefined` cursor; descend on an exact own
property; else on an array with a non-`NaN` numeric segment index into the
array; else greedily merge the segment with up to the next 2 segments
(joined with `.`) and descend on the first merged own property, advancing
past the merged segments; else fail. -/
def parseDataKeyLoop : Option Json → List String → Option Json
  | cur, [] => cur
  | cur, seg :: rest =>
    match cur with
    | none => none
    | some c =>
      if isNull c then none
      else if hasOwn c seg then parseDataKeyLoop (getOwn c seg) rest
      else if isArrayJ c = true ∧ jsStrToNum seg ≠ JsNum.nan then
        parseDataKeyLoop (arrElem c (jsStrToNum seg)) rest
      else
        match rest with
        | [] => none
        | b :: rest2 =>
          if hasOwn c (seg ++ "." ++ b) then
            parseDataKeyLoop (getOwn c (seg ++ "." ++ b)) rest2
          else
            match rest2 with
            | [] => none
            | c2 :: rest3 =>
              if hasOwn c (seg ++ "." ++ b ++ "." ++ c2) then
                parseDataKeyLoop (getOwn c (seg ++ "." ++ b ++ "." ++ c2)) rest3
              else none

/-- `parseDataKey(obj, keyPath)`: the empty path returns the root;
otherwise normalize bracket indices, split on dots and walk.  `none`
models the `undefined` ("not found") result. -/
def parseDataKey (obj : Json) (keyPath : String) : Option Json :=
  if keyPath = "" then some obj
  else parseDataKeyLoop (some obj) (splitDot [] (normalizeBrackets none keyPath.data))

/-- Modelled from the spec: a merge-free resolution following the spec's
split-and-descend words only (exact own key, then array index, no greedy
merge), used to compare with `parseDataKey` and decide whether the merge
heuristic is needed on a given input. -/
def resolveNoMergeLoop : Option Json → List String → Option Json
  | cur, [] => cur
  | cur, seg :: rest =>
    match cur with
    | none => none
    | some c =>
      if isNull c then none
      else if hasOwn c seg then resolveNoMergeLoop (getOwn c seg) rest
      else if isArrayJ c = true ∧ jsStrToNum seg ≠ JsNum.nan then
        resolveNoMergeLoop (arrElem c (jsStrToNum seg)) rest
      else none

/-- Modelled from the spec: top level of the merge-free resolution. -/
def resolveNoMerge (obj : Json) (keyPath : String) : Option Json :=
  if keyPath = "" then some obj
  else resolveNoMergeLoop (some obj) (splitDot [] (normalizeBrackets none keyPath.data))

/-- The hook's visible state `{data: fetchedData, loading: isLoading,
error: errorMessage}`; `data` is `null` (`Json.null`) until a cycle
succeeds. -/
structure FetchState where
  data : Json
  loading : Bool
  error : Option String

/-- A completed HTTP exchange as seen by the fetch cycle: the status, the
status text, and the body — `Except.error msg` models `response.json()`
rejecting with a parse error whose message is `msg`. -/
structure HttpResponse where
  status : Nat
  statusText : String
  body : Except String Json

/-- The top-level key sample of the not-found error message: the first 10
`Object.keys` of the response when it is a (truthy) object — for an array
those are the index strings — and `"n/a"` otherwise. -/
def topKeysStr : Json → String
  | Json.obj fields => String.intercalate ", " ((fields.map Prod.fst).take 10)
  | Json.arr xs => String.intercalate ", " (((List.range xs.length).map toString).take 10)
  | _ => "n/a"

/-- The resolution-failure message thrown by the fetch cycle. -/
def notFoundMsg (dataKey : String) (body : Json) : String :=
  "Data key \"" ++ dataKey ++ "\" not found. Top-level keys: " ++ topKeysStr body

/-- The synchronous part of `fetchData` before the first `await`:
`setIsLoading(true); setErrorMessage(null)`. -/
def startCycle (s : FetchState) : FetchState :=
  { s with loading := true, error := none }

/-- The continuation of `fetchData` once the response has resolved: throw
on a non-2xx status (`response.ok` is status 200–299) with message
`"HTTP <status>: <statusText>"`, throw on a JSON parse failure with the
parser's message, throw `notFoundMsg` when resolution yields `undefined`,
otherwise store the extracted value; every throw is caught and becomes the
`error` message, and the `finally` clause sets `loading` to `false` on
every path.  `data` is written only on success. -/
def finishCycle (dataKey : String) (s : FetchState) (resp : HttpResponse) : FetchState :=
  if ¬(200 ≤ resp.status ∧ resp.status ≤ 299) then
    { s with loading := false,
             error := some ("HTTP " ++ toString resp.status ++ ": " ++ resp.statusText) }
  else
    match resp.body with
    | Except.error msg => { s with loading := false, error := some msg }
    | Except.ok body =>
      match parseDataKey body dataKey with
      | none => { s with loading := false, error := some (notFoundMsg dataKey body) }
      | some v => { s with loading := false, data := v }

/-- One whole fetch cycle run without interleaving: the synchronous start
followed by the completion. -/
def runCycle (dataKey : String) (s : FetchState) (resp : HttpResponse) : FetchState :=
  finishCycle dataKey (startCycle s) resp

/-- A hook instance: its visible state plus whether the auto-refresh
interval timer is still registered. -/
structure HookInstance where
  st : FetchState
  timerActive : Bool

/-- The events that reach a hook instance: `start` is `fetchData` running
up to its first `await`; `complete resp` is a previously issued request
resolving, running the rest of `fetchData`; `cleanup` is the effect
cleanup (unmount or reconfiguration), which in the source is
`clearInterval(interval)` and nothing else. -/
inductive HookEvent where
  | start
  | complete (resp : HttpResponse)
  | cleanup

/-- The hook's transition on one event.  The source's completion code runs
its state setters unconditionally — there is no torn-down/cancelled guard
in `fetchData` — so `complete` updates the state even after `cleanup`. -/
def hookStep (dataKey : String) (h : HookInstance) : HookEvent → HookInstance
  | HookEvent.start => { h with st := startCycle h.st }
  | HookEvent.complete resp => { h with st := finishCycle dataKey h.st resp }
  | HookEvent.cleanup => { h with timerActive := false }

/-- An `undefined` cursor yields `undefined` whatever segments remain. -/
theorem parseDataKeyLoop_none (r : List String) : parseDataKeyLoop none r = none := by
  cases r <;> rfl

/-- Values `isNull` accepts have no own properties. -/
theorem hasOwn_eq_false_of_isNull (c : Json) (k : String) (h : isNull c = true) :
    hasOwn c k = false := by
  cases c <;> simp_all [isNull, hasOwn]

/-- A cursor that owns a property is not `null`. -/
theorem isNull_eq_false_of_hasOwn (c : Json) (k : String) (h : hasOwn c k = true) :
    isNull c = false := by
  cases c <;> simp_all [isNull, hasOwn]

/-- C4: the empty path expression denotes the root value itself —
`parseDataKey obj "" = obj` for every value `obj`. -/
theorem C4_empty_path_returns_root (obj : Json) : parseDataKey obj "" = some obj := rfl

/-- C2 counterexample: the claim says `resolve({"09. change": "-1.23"},
"09. change")` succeeds "without the merge heuristic being needed", but
the path is split at the dot first, so the merge-free resolution of the
spec's own split-and-descend steps fails on this input while the real
`parseDataKey` succeeds only through the greedy merge. -/
theorem C2_counterexample :
    resolveNoMerge (.obj [("09. change", .str "-1.23")]) "09. change" = none
    ∧ parseDataKey (.obj [("09. change", .str "-1.23")]) "09. change" = some (.str "-1.23") :=
  ⟨rfl, rfl⟩

/-- C2 (amended): at each step an own property exactly equal to the
current segment is descended into before any array-index or merge
interpretation, so a key equal to a single segment is never shadowed by a
merge; and `resolve({"09. change": "-1.23"}, "09. change") = "-1.23"` —
though that example resolves via the greedy merge (segment `"09"` is not
an own property), not via the exact-key branch. -/
theorem C2_exact_key_priority :
    (∀ (c : Json) (seg : String) (rest : List String), hasOwn c seg = true →
      parseDataKeyLoop (some c) (seg :: rest) = parseDataKeyLoop (getOwn c seg) rest)
    ∧ parseDataKey (.obj [("09. change", .str "-1.23")]) "09. change" = some (.str "-1.23") := by
  refine ⟨?_, rfl⟩
  intro c seg rest h
  have hn : isNull c = false := isNull_eq_false_of_hasOwn c seg h
  rw [parseDataKeyLoop.eq_def]
  simp [hn, h]

/-- C2 witness: the exact-key priority applied at a concrete cursor. -/
theorem C2_exact_key_priority_witness :
    hasOwn (.obj [("price", .num 5)]) "price" = true
    ∧ parseDataKeyLoop (some (.obj [("price", .num 5)])) ["price"]
        = parseDataKeyLoop (getOwn (.obj [("price", .num 5)]) "price") [] :=
  ⟨rfl, C2_exact_key_priority.1 _ "price" [] rfl⟩

/-- C7 counterexample: traversal into a string primitive does not always
fail — boxed strings own their character indices, so
`resolve({a: "hello"}, "a.0")` yields `"h"`, not "not found". -/
theorem C7_counterexample :
    parseDataKey (.obj [("a", .str "hello")]) "a.0" = some (.str "h")
    ∧ parseDataKey (.obj [("a", .str "hello")]) "a.0" ≠ none := by
  refine ⟨rfl, ?_⟩
  intro h
  rw [show parseDataKey (.obj [("a", .str "hello")]) "a.0" = some (.str "h") from rfl] at h
  exact Option.noConfusion h

/-- C7 (amended): traversal into a number or boolean primitive with
segments remaining always fails, but a string cursor owns its character
indices and `length`, so resolution into a string can succeed:
`resolve({a: "hello"}, "a.0") = "h"` while `resolve({a: 5}, "a.b")` is
"not found". -/
theorem C7_primitive_traversal :
    (∀ (q : ℚ) (seg : String) (rest : List String),
      parseDataKeyLoop (some (.num q)) (seg :: rest) = none)
    ∧ (∀ (b : Bool) (seg : String) (rest : List String),
      parseDataKeyLoop (some (.bool b)) (seg :: rest) = none)
    ∧ parseDataKey (.obj [("a", .str "hello")]) "a.0" = some (.str "h")
    ∧ parseDataKey (.obj [("a", .num 5)]) "a.b" = none := by
  refine ⟨?_, ?_, rfl, rfl⟩
  · intro q seg rest
    rcases rest with _ | ⟨b, _ | ⟨c2, rest3⟩⟩ <;>
      · rw [parseDataKeyLoop.eq_def]
        simp [isNull, hasOwn, isArrayJ]
  · intro b seg rest
    rcases rest with _ | ⟨b2, _ | ⟨c2, rest3⟩⟩ <;>
      · rw [parseDataKeyLoop.eq_def]
        simp [isNull, hasOwn, isArrayJ]

/-- C3: a fetch cycle whose response has a non-2xx status ends with
`error = "HTTP <status>: <statusText>"`, `data` unchanged from its value
before the cycle, and `loading` back to `false`. -/
theorem C3_http_error_cycle (s : FetchState) (dataKey : String) (resp : HttpResponse)
    (h : ¬(200 ≤ resp.status ∧ resp.status ≤ 299)) :
    runCycle dataKey s resp =
      { data := s.data, loading := false,
        error := some ("HTTP " ++ toString resp.status ++ ": " ++ resp.statusText) } := by
  simp [runCycle, startCycle, finishCycle, h]

/-- C3 witness: a cycle against an HTTP 500 response. -/
theorem C3_http_error_cycle_witness :
    ¬(200 ≤ 500 ∧ 500 ≤ 299)
    ∧ runCycle "price" ⟨Json.null, false, none⟩
        ⟨500, "Internal Server Error", Except.ok Json.null⟩ =
      { data := Json.null, loading := false,
        error := some "HTTP 500: Internal Server Error" } :=
  ⟨by decide,
    (C3_http_error_cycle ⟨Json.null, false, none⟩ "price"
      ⟨500, "Internal Server Error", Except.ok Json.null⟩ (by decide)).trans rfl⟩

/-- C9: a cycle with a 2xx response and a parsed body on which resolution
returns "not found" ends with the error message built from the attempted
path expression and at most the first 10 top-level keys of the body, with
`data` untouched and `loading` false. -/
theorem C9_not_found_error_message (s : FetchState) (dataKey : String)
    (st : Nat) (txt : String) (body : Json)
    (hok : 200 ≤ st ∧ st ≤ 299)
    (h : parseDataKey body dataKey = none) :
    runCycle dataKey s ⟨st, txt, Except.ok body⟩ =
      { data := s.data, loading := false, error := some (notFoundMsg dataKey body) }
    ∧ (∃ a b, notFoundMsg dataKey body = a ++ dataKey ++ b)
    ∧ (∀ fields, body = Json.obj fields →
        topKeysStr body = String.intercalate ", " ((fields.map Prod.fst).take 10)
        ∧ ((fields.map Prod.fst).take 10).length ≤ 10) := by
  refine ⟨?_, ?_, ?_⟩
  · simp [runCycle, startCycle, finishCycle, hok, h]
  · exact ⟨"Data key \"", "\" not found. Top-level keys: " ++ topKeysStr body, by
      simp [notFoundMsg, String.append_assoc]⟩
  · intro fields hb
    subst hb
    exact ⟨rfl, List.length_take_le 10 (fields.map Prod.fst)⟩

/-- C9 witness: a body with twelve top-level keys, none of them matching
the requested path, produces the message listing only the first ten. -/
theorem C9_not_found_error_message_witness :
    parseDataKey (Json.obj [("k01", .num 1), ("k02", .num 2), ("k03", .num 3),
      ("k04", .num 4), ("k05", .num 5), ("k06", .num 6), ("k07", .num 7),
      ("k08", .num 8), ("k09", .num 9), ("k10", .num 10), ("k11", .num 11),
      ("k12", .num 12)]) "missing" = none
    ∧ runCycle "missing" ⟨Json.null, false, none⟩
        ⟨200, "OK", Except.ok (Json.obj [("k01", .num 1), ("k02", .num 2), ("k03", .num 3),
          ("k04", .num 4), ("k05", .num 5), ("k06", .num 6), ("k07", .num 7),
          ("k08", .num 8), ("k09", .num 9), ("k10", .num 10), ("k11", .num 11),
          ("k12", .num 12)])⟩ =
      { data := Json.null, loading := false,
        error := some ("Data key \"missing\" not found. Top-level keys: " ++
          "k01, k02, k03, k04, k05, k06, k07, k08, k09, k10") } :=
  ⟨rfl,
    ((C9_not_found_error_message ⟨Json.null, false, none⟩ "missing" 200 "OK"
      (Json.obj [("k01", .num 1), ("k02", .num 2), ("k03", .num 3),
        ("k04", .num 4), ("k05", .num 5), ("k06", .num 6), ("k07", .num 7),
        ("k08", .num 8), ("k09", .num 9), ("k10", .num 10), ("k11", .num 11),
        ("k12", .num 12)]) (by decide) rfl).1).trans rfl⟩

/-- C8: the claim requires that after effect cleanup no further state
updates occur, but the source's completion code has no torn-down guard —
this trace starts a request, runs the cleanup (which only cancels the
timer), and then lets the request resolve: the resolution still flips
`error` from `none` to the HTTP failure message and `loading` from `true`
to `false` on the torn-down instance. -/
theorem C8_stale_completion_updates_state :
    (hookStep "price" (hookStep "price" ⟨⟨Json.null, false, none⟩, true⟩
        HookEvent.start) HookEvent.cleanup).timerActive = false
    ∧ (hookStep "price" (hookStep "price" ⟨⟨Json.null, false, none⟩, true⟩
        HookEvent.start) HookEvent.cleanup).st.error = none
    ∧ (hookStep "price" (hookStep "price" ⟨⟨Json.null, false, none⟩, true⟩
        HookEvent.start) HookEvent.cleanup).st.loading = true
    ∧ (hookStep "price" (hookStep "price" (hookStep "price"
        ⟨⟨Json.null, false, none⟩, true⟩ HookEvent.start) HookEvent.cleanup)
        (HookEvent.complete ⟨500, "Internal Server Error", Except.ok Json.null⟩)).st.error
      = some "HTTP 500: Internal Server Error"
    ∧ (hookStep "price" (hookStep "price" (hookStep "price"
        ⟨⟨Json.null, false, none⟩, true⟩ HookEvent.start) HookEvent.cleanup)
        (HookEvent.complete ⟨500, "Internal Server Error", Except.ok Json.null⟩)).st.loading
      = false :=
  ⟨rfl, rfl, rfl, rfl, rfl⟩

/-- C6: when at a step no exact key, no array-index interpretation and no
merged key (one or two extra segments) matches, the whole resolution
returns the distinguished `undefined` ("not found") result; that result is
distinct from successfully resolving a present `null`:
`parseDataKey {a: null} "a"` is `some null`, not `none`. -/
theorem C6_missing_branch_not_found (c : Json) (seg : String) (rest : List String)
    (h1 : hasOwn c seg = false)
    (h2 : ¬(isArrayJ c = true ∧ jsStrToNum seg ≠ JsNum.nan))
    (h3 : ∀ b rest2, rest = b :: rest2 → hasOwn c (seg ++ "." ++ b) = false)
    (h4 : ∀ b c2 rest3, rest = b :: c2 :: rest3 →
      hasOwn c (seg ++ "." ++ b ++ "." ++ c2) = false) :
    parseDataKeyLoop (some c) (seg :: rest) = none
    ∧ parseDataKey (.obj [("a", .null)]) "a" = some Json.null := by
  refine ⟨?_, rfl⟩
  cases hn : isNull c with
  | true =>
    rw [parseDataKeyLoop.eq_def]
    simp [hn]
  | false =>
    rcases rest with _ | ⟨b, _ | ⟨c2, rest3⟩⟩
    · rw [parseDataKeyLoop.eq_def]
      simp [hn, h1, h2]
    · rw [parseDataKeyLoop.eq_def]
      simp [hn, h1, h2, h3 b [] rfl]
    · rw [parseDataKeyLoop.eq_def]
      simp [hn, h1, h2, h3 b (c2 :: rest3) rfl, h4 b c2 rest3 rfl]

/-- C6 witness: a one-segment path addressing a key the object does not
have. -/
theorem C6_missing_branch_not_found_witness :
    hasOwn (.obj [("x", .num 1)]) "y" = false
    ∧ parseDataKeyLoop (some (.obj [("x", .num 1)])) ["y"] = none :=
  ⟨rfl, (C6_missing_branch_not_found (.obj [("x", .num 1)]) "y" [] rfl (by decide)
    (fun b r h => nomatch h) (fun b c2 r h => nomatch h)).1⟩

/-- C10: `parseDataKey` is a total function — every input yields `none` or
a value, never an error — and an array-index segment whose numeric value
is a negative or out-of-bounds integer makes the whole resolution return
`none` (the element access yields `undefined` and the walk then fails),
whatever segments remain. -/
theorem C10_total_and_array_bounds :
    (∀ (obj : Json) (path : String),
      parseDataKey obj path = none ∨ ∃ v, parseDataKey obj path = some v)
    ∧ (∀ (xs : List Json) (seg : String) (rest : List String) (q : ℚ),
      hasOwn (Json.arr xs) seg = false →
      jsStrToNum seg = JsNum.finite q →
      q.den = 1 → (q.num < 0 ∨ (xs.length : Int) ≤ q.num) →
      parseDataKeyLoop (some (Json.arr xs)) (seg :: rest) = none) := by
  constructor
  · intro obj path
    cases h : parseDataKey obj path with
    | none => exact Or.inl rfl
    | some v => exact Or.inr ⟨v, rfl⟩
  · intro xs seg rest q h1 h2 hden hoob
    have hnan : jsStrToNum seg ≠ JsNum.nan := by simp [h2]
    have helem : arrElem (Json.arr xs) (jsStrToNum seg) = none := by
      rw [h2]
      have hni : ¬(q.den = 1 ∧ 0 ≤ q.num ∧ q.num < (xs.length : Int)) := by
        rintro ⟨-, hge, hlt⟩
        rcases hoob with h | h <;> omega
      show (if q.den = 1 ∧ 0 ≤ q.num ∧ q.num < (xs.length : Int) then
          xs.get? q.num.toNat else none) = none
      exact if_neg hni
    rw [parseDataKeyLoop.eq_def]
    simp [isNull, h1, isArrayJ, hnan, helem, parseDataKeyLoop_none]

/-- C10 witness: the negative index `"-1"` on a two-element array with a
further segment remaining. -/
theorem C10_total_and_array_bounds_witness :
    hasOwn (Json.arr [.num 1, .num 2]) "-1" = false
    ∧ jsStrToNum "-1" = JsNum.finite (-1)
    ∧ parseDataKeyLoop (some (Json.arr [.num 1, .num 2])) ["-1", "x"] = none :=
  ⟨rfl, by decide,
    C10_total_and_array_bounds.2 [.num 1, .num 2] "-1" ["x"] (-1) rfl (by decide)
      (by decide) (Or.inl (by decide))⟩

/-- C1: when the current segment is not an own property and the cursor is
not an array with a numeric segment, the loop joins the segment with up to
the next 2 following segments using `.`, descends on the first merged own
property and advances past the merged segments, and fails when no merge of
up to two extra segments matches; in particular
`parseDataKey {"Global Quote": {"09. change": "-1.23"}}
"Global Quote.09. change" = "-1.23"`, while a key whose resolution would
need more than 2 extra segments, such as `"a.b.c.d"`, is not resolvable. -/
theorem C1_greedy_merge (c : Json) (seg : String) (rest : List String)
    (h1 : hasOwn c seg = false)
    (h2 : ¬(isArrayJ c = true ∧ jsStrToNum seg ≠ JsNum.nan)) :
    (rest = [] → parseDataKeyLoop (some c) (seg :: rest) = none)
    ∧ (∀ b rest2, rest = b :: rest2 → hasOwn c (seg ++ "." ++ b) = true →
        parseDataKeyLoop (some c) (seg :: rest)
          = parseDataKeyLoop (getOwn c (seg ++ "." ++ b)) rest2)
    ∧ (∀ b c2 rest3, rest = b :: c2 :: rest3 →
        hasOwn c (seg ++ "." ++ b) = false →
        hasOwn c (seg ++ "." ++ b ++ "." ++ c2) = true →
        parseDataKeyLoop (some c) (seg :: rest)
          = parseDataKeyLoop (getOwn c (seg ++ "." ++ b ++ "." ++ c2)) rest3)
    ∧ (∀ b, rest = [b] → hasOwn c (seg ++ "." ++ b) = false →
        parseDataKeyLoop (some c) (seg :: rest) = none)
    ∧ (∀ b c2 rest3, rest = b :: c2 :: rest3 →
        hasOwn c (seg ++ "." ++ b) = false →
        hasOwn c (seg ++ "." ++ b ++ "." ++ c2) = false →
        parseDataKeyLoop (some c) (seg :: rest) = none)
    ∧ parseDataKey (.obj [("Global Quote", .obj [("09. change", .str "-1.23")])])
        "Global Quote.09. change" = some (.str "-1.23")
    ∧ parseDataKey (.obj [("a.b.c.d", .num 1)]) "a.b.c.d" = none := by
  refine ⟨?_, ?_, ?_, ?_, ?_, rfl, rfl⟩
  · intro hr
    subst hr
    cases hn : isNull c <;>
      · rw [parseDataKeyLoop.eq_def]
        simp [hn, h1, h2]
  · intro b rest2 hr hm
    subst hr
    have hn : isNull c = false := isNull_eq_false_of_hasOwn c _ hm
    rw [parseDataKeyLoop.eq_def]
    simp [hn, h1, h2, hm]
  · intro b c2 rest3 hr hm1 hm2
    subst hr
    have hn : isNull c = false := isNull_eq_false_of_hasOwn c _ hm2
    rw [parseDataKeyLoop.eq_def]
    simp [hn, h1, h2, hm1, hm2]
  · intro b hr hm
    subst hr
    cases hn : isNull c <;>
      · rw [parseDataKeyLoop.eq_def]
        simp [hn, h1, h2, hm]
  · intro b c2 rest3 hr hm1 hm2
    subst hr
    cases hn : isNull c <;>
      · rw [parseDataKeyLoop.eq_def]
        simp [hn, h1, h2, hm1, hm2]

/-- C1 witness: the merge step of the Alpha Vantage example — segment
`"09"` is not an own property, the one-extra-segment merge
`"09. change"` is, and the loop advances past both segments. -/
theorem C1_greedy_merge_witness :
    hasOwn (.obj [("09. change", .str "-1.23")]) "09" = false
    ∧ parseDataKeyLoop (some (.obj [("09. change", .str "-1.23")])) ["09", " change"]
        = parseDataKeyLoop (getOwn (.obj [("09. change", .str "-1.23")]) "09. change") [] :=
  ⟨rfl, by
    have h := (C1_greedy_merge (.obj [("09. change", .str "-1.23")]) "09" [" change"]
      rfl (by decide)).2.1 " change" [] rfl rfl
    simpa using h⟩

/-- Characters before any `[` are copied unchanged by the bracket
normalization. -/
theorem normalizeBrackets_append_of_not_mem (pre l : List Char) (h : '[' ∉ pre) :
    normalizeBrackets none (pre ++ l) = pre ++ normalizeBrackets none l := by
  induction pre with
  | nil => rfl
  | cons c t ih =>
    have hc : ¬c = '[' := fun e => h (by simp [e])
    have ht : '[' ∉ t := fun m => h (List.mem_cons_of_mem _ m)
    simp [normalizeBrackets, hc, ih ht]

/-- Scanning digits inside a bracket candidate that is closed by `]`
rewrites the whole candidate to a dot segment. -/
theorem normalizeBrackets_digits_close (ds : List Char) : ∀ (acc post : List Char),
    (∀ x ∈ ds, x.isDigit = true) → (acc ≠ [] ∨ ds ≠ []) →
    normalizeBrackets (some acc) (ds ++ (']' :: post))
      = '.' :: ((acc.reverse ++ ds) ++ normalizeBrackets none post) := by
  induction ds with
  | nil =>
    intro acc post _ hne
    cases acc with
    | nil =>
      rcases hne with h | h <;> exact absurd rfl h
    | cons a t => simp [normalizeBrackets]
  | cons d ds' ih =>
    intro acc post hds hne
    have hd : d.isDigit = true := hds d (by simp)
    have hd1 : ¬d = ']' := by
      intro e
      rw [e] at hd
      exact absurd hd (by decide)
    have hstep : normalizeBrackets (some acc) ((d :: ds') ++ (']' :: post))
        = normalizeBrackets (some (d :: acc)) (ds' ++ (']' :: post)) := by
      simp [normalizeBrackets, hd1, hd]
    rw [hstep, ih (d :: acc) post (fun x hx => hds x (by simp [hx])) (Or.inl (by simp))]
    simp

/-- A full `[digits]` group at the head of the input is rewritten to
`.digits`. -/
theorem normalizeBrackets_bracket (ds post : List Char)
    (hds : ∀ x ∈ ds, x.isDigit = true) (hne : ds ≠ []) :
    normalizeBrackets none ('[' :: (ds ++ (']' :: post)))
      = '.' :: (ds ++ normalizeBrackets none post) := by
  have h1 : normalizeBrackets none ('[' :: (ds ++ (']' :: post)))
      = normalizeBrackets (some []) (ds ++ (']' :: post)) := by
    simp [normalizeBrackets]
  rw [h1, normalizeBrackets_digits_close ds [] post hds (Or.inr hne)]
  simp

/-- C5: bracket-index and dotted-index syntax are equivalent — for a path
whose prefix contains no `[`, replacing a `[digits]` group by `.digits`
does not change resolution; in particular both `"a.1"` and `"a[1]"`
select element 1 of the array at key `a`. -/
theorem C5_bracket_dot_equiv (obj : Json) (pre ds post : List Char)
    (hpre : '[' ∉ pre) (hne : ds ≠ []) (hds : ∀ x ∈ ds, x.isDigit = true) :
    parseDataKey obj (String.mk (pre ++ ('[' :: (ds ++ (']' :: post)))))
      = parseDataKey obj (String.mk (pre ++ ('.' :: (ds ++ post))))
    ∧ parseDataKey (.obj [("a", .arr [.num 10, .num 20, .num 30])]) "a.1" = some (.num 20)
    ∧ parseDataKey (.obj [("a", .arr [.num 10, .num 20, .num 30])]) "a[1]" = some (.num 20) := by
  refine ⟨?_, rfl, rfl⟩
  have hds' : '[' ∉ ('.' :: ds) := by
    intro hmem
    rcases List.mem_cons.mp hmem with h | h
    · exact absurd h (by decide)
    · exact absurd (hds '[' h) (by decide)
  have e1 : normalizeBrackets none (pre ++ ('[' :: (ds ++ (']' :: post))))
      = pre ++ ('.' :: (ds ++ normalizeBrackets none post)) := by
    rw [normalizeBrackets_append_of_not_mem pre _ hpre,
      normalizeBrackets_bracket ds post hds hne]
  have e2 : normalizeBrackets none (pre ++ ('.' :: (ds ++ post)))
      = pre ++ ('.' :: (ds ++ normalizeBrackets none post)) := by
    rw [normalizeBrackets_append_of_not_mem pre _ hpre,
      show ('.' :: (ds ++ post) : List Char) = ('.' :: ds) ++ post by simp,
      normalizeBrackets_append_of_not_mem ('.' :: ds) post hds']
    simp
  have hne1 : String.mk (pre ++ ('[' :: (ds ++ (']' :: post)))) ≠ "" := by
    intro h
    have h2 : (pre ++ ('[' :: (ds ++ (']' :: post))) : List Char) = [] := congrArg String.data h
    simp at h2
  have hne2 : String.mk (pre ++ ('.' :: (ds ++ post))) ≠ "" := by
    intro h
    have h2 : (pre ++ ('.' :: (ds ++ post)) : List Char) = [] := congrArg String.data h
    simp at h2
  unfold parseDataKey
  rw [if_neg hne1, if_neg hne2]
  show parseDataKeyLoop (some obj)
      (splitDot [] (normalizeBrackets none (pre ++ ('[' :: (ds ++ (']' :: post))))))
    = parseDataKeyLoop (some obj)
      (splitDot [] (normalizeBrackets none (pre ++ ('.' :: (ds ++ post)))))
  rw [e1, e2]

/-- C5 witness: the equivalence applied at `"a[1]"` versus `"a.1"`. -/
theorem C5_bracket_dot_equiv_witness :
    ('[' ∉ (['a'] : List Char))
    ∧ parseDataKey (.obj [("a", .arr [.num 10, .num 20, .num 30])])
        (String.mk (['a'] ++ ('[' :: (['1'] ++ (']' :: [])))))
      = parseDataKey (.obj [("a", .arr [.num 10, .num 20, .num 30])])
        (String.mk (['a'] ++ ('.' :: (['1'] ++ [])))) :=
  ⟨by decide, (C5_bracket_dot_equiv (.obj [("a", .arr [.num 10, .num 20, .num 30])])
    ['a'] ['1'] [] (by decide) (by decide) (by decide)).1⟩
